import Mathlib

/-!
Verification of the process-capability engine (stats, goal seek, viewport,
histogram) of the interactive-capability repository, against its
natural-language specification.

Modelling conventions:
* JavaScript numbers are modelled exactly: rationals (`ℚ`) for the purely
  arithmetic components (viewport, goal seek, histogram) and reals (`ℝ`) for
  the components that use `Math.exp` / `Math.log` / `Math.sqrt`.
* The distinguished non-finite values `NaN`, `Infinity`, `-Infinity` are
  represented by the wrapper type `JSNum`; `isFinite` is its finiteness test.
  Inside a branch where the source has already checked `isFinite` on every
  operand, arithmetic is exact and cannot create a non-finite value, so the
  payload stays a plain rational/real.
* Fallible code (a JS `TypeError` on an out-of-range array element access)
  is modelled with `Option`: `none` is the crash.
-/

set_option maxHeartbeats 1000000

/-- A JavaScript number: either a finite value of the carrier type `α`, or one
of the three non-finite doubles. -/
inductive JSNum (α : Type) where
  | fin (x : α)
  | nan
  | posInf
  | negInf
deriving DecidableEq

/-- JS `isFinite`. -/
def JSNum.isFinite {α : Type} : JSNum α → Bool
  | .fin _ => true
  | _ => false

/-! ## Goal-seek solver (src/utils/goalSeek.ts, shipped inside presets.ts)

All goal-seek inputs handled by the claims are finite JS numbers, so this
module is embedded over `ℚ` directly; the source's `isFinite` validation
conjuncts are identically true there and the remaining comparisons are kept
verbatim.  The distinct human-readable error strings are represented by the
constructors of `GoalSeekError`, and the `success: boolean | 'partial'` field
by `GSSuccess` (`full` for `true`, `partialSuccess` for `'partial'`, `failed`
for `false`). -/

/-- The tri-state `success` field of `GoalSeekResult`. -/
inductive GSSuccess where
  | full
  | partialSuccess
  | failed
deriving DecidableEq

/-- The distinct error messages produced by `solveForMean` / `solveForStd`,
one constructor per message template. -/
inductive GoalSeekError where
  | targetCpkNotPositive
  | stdNotPositive
  | invalidSpecLimits
  | targetUnachievable
  | meanNotAboveLsl
  | meanNotBelowUsl
  | requiredStdTooSmall
  | requiredStdTooLarge
deriving DecidableEq

/-- The `fallback` record of a failed goal seek: optional mean, optional std,
and the Cpk it achieves. -/
structure GoalSeekFallback where
  mean : Option ℚ
  std : Option ℚ
  achievedCpk : ℚ
deriving DecidableEq

/-- `GoalSeekResult` from goalSeek.ts.  Field order:
success, mean, std, achievedCpk, error, warning, fallback.  The JS `warning`
string is modelled by its presence bit. -/
structure GoalSeekResult where
  success : GSSuccess
  mean : Option ℚ
  std : Option ℚ
  achievedCpk : Option ℚ
  error : Option GoalSeekError
  warning : Bool
  fallback : Option GoalSeekFallback
deriving DecidableEq

/-- `calculateCpk` from goalSeek.ts: `0` if `std <= 0 || usl <= lsl`,
otherwise `min(cpu, cpl)`. -/
def calculateCpk (mean std lsl usl : ℚ) : ℚ :=
  if std ≤ 0 ∨ usl ≤ lsl then 0
  else min ((usl - mean) / (3 * std)) ((mean - lsl) / (3 * std))

/-- `solveForMean` from goalSeek.ts. -/
def solveForMean (targetCpk lsl usl std : ℚ) (currentMean : Option ℚ) :
    GoalSeekResult :=
  if targetCpk ≤ 0 then
    ⟨.failed, none, none, none, some .targetCpkNotPositive, false, none⟩
  else if std ≤ 0 then
    ⟨.failed, none, none, none, some .stdNotPositive, false, none⟩
  else if usl ≤ lsl then
    ⟨.failed, none, none, none, some .invalidSpecLimits, false, none⟩
  else
    let minMean := lsl + 3 * targetCpk * std
    let maxMean := usl - 3 * targetCpk * std
    if maxMean < minMean then
      let centerMean := (lsl + usl) / 2
      let maxAchievableCpk := calculateCpk centerMean std lsl usl
      ⟨.failed, none, none, none, some .targetUnachievable, false,
        some ⟨some centerMean, none, maxAchievableCpk⟩⟩
    else
      let optimalMean :=
        match currentMean with
        | some c =>
            if minMean ≤ c ∧ c ≤ maxMean then c
            else if c < minMean then minMean
            else maxMean
        | none => (minMean + maxMean) / 2
      let achievedCpk := calculateCpk optimalMean std lsl usl
      if 0.01 < |achievedCpk - targetCpk| then
        ⟨.partialSuccess, some optimalMean, none, some achievedCpk, none, true, none⟩
      else
        ⟨.full, some optimalMean, none, some achievedCpk, none, false, none⟩

/-- `solveForStd` from goalSeek.ts. -/
def solveForStd (targetCpk mean lsl usl : ℚ) : GoalSeekResult :=
  if targetCpk ≤ 0 then
    ⟨.failed, none, none, none, some .targetCpkNotPositive, false, none⟩
  else if usl ≤ lsl then
    ⟨.failed, none, none, none, some .invalidSpecLimits, false, none⟩
  else if mean ≤ lsl then
    ⟨.failed, none, none, none, some .meanNotAboveLsl, false, none⟩
  else if usl ≤ mean then
    ⟨.failed, none, none, none, some .meanNotBelowUsl, false, none⟩
  else
    let stdFromUpper := (usl - mean) / (3 * targetCpk)
    let stdFromLower := (mean - lsl) / (3 * targetCpk)
    let requiredStd := min stdFromUpper stdFromLower
    if requiredStd < 0.0001 then
      ⟨.failed, none, none, none, some .requiredStdTooSmall, false, none⟩
    else if (usl - lsl) / 2 < requiredStd then
      ⟨.failed, none, none, none, some .requiredStdTooLarge, false, none⟩
    else
      ⟨.full, none, some requiredStd,
        some (calculateCpk mean requiredStd lsl usl), none, false, none⟩

/-- The feasible-branch mean choice of `solveForMean` (the clamp of
`currentMean` into `[minMean, maxMean]`, midpoint when absent), named so the
branch can be reasoned about in isolation. -/
def solveForMeanChoice (targetCpk lsl usl std : ℚ) (currentMean : Option ℚ) : ℚ :=
  match currentMean with
  | some c =>
      if lsl + 3 * targetCpk * std ≤ c ∧ c ≤ usl - 3 * targetCpk * std then c
      else if c < lsl + 3 * targetCpk * std then lsl + 3 * targetCpk * std
      else usl - 3 * targetCpk * std
  | none => (lsl + 3 * targetCpk * std + (usl - 3 * targetCpk * std)) / 2

/-! ## Viewport calculator (src/utils/viewport.ts) -/

/-- `ViewportBounds` from viewport.ts. -/
structure ViewportBounds where
  displayMin : ℚ
  displayMax : ℚ
deriving DecidableEq

/-- `padLower` from viewport.ts: `lsl < 0 ? lsl * 1.1 : lsl * 0.9`. -/
def padLower (lsl : ℚ) : ℚ :=
  if lsl < 0 then lsl * 1.1 else lsl * 0.9

/-- `padUpper` from viewport.ts: `usl < 0 ? usl * 0.9 : usl * 1.1`. -/
def padUpper (usl : ℚ) : ℚ :=
  if usl < 0 then usl * 0.9 else usl * 1.1

/-- `computeHybridViewport` from viewport.ts.  The guard
`!isFinite(mean) || !isFinite(std) || std <= 0` is the wildcard match arm
together with the `s ≤ 0` test; the final safety clamp
`!isFinite(displayMin) || !isFinite(displayMax) || displayMin >= displayMax`
keeps only its ordering part, since exact arithmetic on finite inputs cannot
produce a non-finite value. -/
def computeHybridViewport (mean std lsl usl : JSNum ℚ) : ViewportBounds :=
  match mean, std with
  | .fin m, .fin s =>
    if s ≤ 0 then ⟨-6, 6⟩
    else
      let meanMin := m - 6 * s
      let meanMax := m + 6 * s
      let specMin := match lsl with | .fin l => padLower l | _ => meanMin
      let specMax := match usl with | .fin u => padUpper u | _ => meanMax
      let displayMin := min meanMin specMin
      let displayMax := max meanMax specMax
      if displayMax ≤ displayMin then ⟨meanMin, meanMax⟩
      else ⟨displayMin, displayMax⟩
  | _, _ => ⟨-6, 6⟩

/-- `computeFitToMeanViewport` from viewport.ts.  The first guard
`!isFinite(mean) || !isFinite(std) || std <= 0 || !isFinite(multiplier) ||
multiplier <= 0` returns `{-6, 6}`; the second guard (ordering part of the
safety clamp, reachable only after all three inputs passed) returns
`{mean - 6, mean + 6}`. -/
def computeFitToMeanViewport (mean std multiplier : JSNum ℚ) : ViewportBounds :=
  match mean, std, multiplier with
  | .fin m, .fin s, .fin k =>
    if s ≤ 0 ∨ k ≤ 0 then ⟨-6, 6⟩
    else
      let displayMin := m - k * s
      let displayMax := m + k * s
      if displayMax ≤ displayMin then ⟨m - 6, m + 6⟩
      else ⟨displayMin, displayMax⟩
  | _, _, _ => ⟨-6, 6⟩

/-! ## Descriptive stats and histogram builder (src/utils/stats.ts) -/

/-- One histogram bin from `generateHistogram` in stats.ts.  The source field
`end` is a Lean keyword and is rendered `stop`. -/
structure HistogramBin where
  start : ℚ
  stop : ℚ
  count : ℕ
  frequency : ℚ
deriving DecidableEq

/-- The histogram record `{ bins, min, max }` from `generateHistogram`. -/
structure Histogram where
  bins : List HistogramBin
  min : ℚ
  max : ℚ
deriving DecidableEq

/-- JS `Math.min(...data)` for the non-empty lists it is applied to
(`Math.min()` of an empty spread is `Infinity`; that case is guarded out in
`generateHistogram`, so the `[]` value here is arbitrary). -/
def listMin : List ℚ → ℚ
  | [] => 0
  | x :: xs => xs.foldl min x

/-- JS `Math.max(...data)` for non-empty lists (see `listMin`). -/
def listMax : List ℚ → ℚ
  | [] => 0
  | x :: xs => xs.foldl max x

/-- The bin index `Math.min(Math.floor((value - min) / binWidth), numBins - 1)`
from `generateHistogram`.  Each data value satisfies `mn ≤ v`, and the index is
used only with `0 < binWidth`, where the floor is non-negative, so `Int.toNat`
is the identity on the reachable values. -/
def histBinIndex (mn binWidth : ℚ) (numBins : ℕ) (v : ℚ) : ℕ :=
  Nat.min (Int.toNat ⌊(v - mn) / binWidth⌋) (numBins - 1)

/-- `generateHistogram` from stats.ts.  Empty data returns
`{bins: [], min: 0, max: 0}`.  When the data is non-empty but `binWidth = 0`
(all values equal, so `max - min = 0`) the JS bin index is
`Math.floor(0 / 0) = NaN` and `bins[NaN].count++` throws a `TypeError`;
likewise `numBins = 0` makes the clamped index `-1` and `bins[-1].count++`
throws.  Both crashes are modelled as `none`.  In the remaining case every
index is in range and the final count of bin `i` is the number of data values
whose index is `i`, written with `List.countP`. -/
def generateHistogram (data : List ℚ) (numBins : ℕ) : Option Histogram :=
  if data = [] then some ⟨[], 0, 0⟩
  else
    let mn := listMin data
    let mx := listMax data
    let range := mx - mn
    if numBins = 0 ∨ range = 0 then none
    else
      let binWidth := range / numBins
      let bins := (List.range numBins).map (fun i =>
        let c := data.countP (fun v => histBinIndex mn binWidth numBins v == i)
        (⟨mn + (i : ℚ) * binWidth, mn + ((i : ℚ) + 1) * binWidth,
          c, (c : ℚ) / (data.length : ℚ)⟩ : HistogramBin))
      some ⟨bins, mn, mx⟩

/-! ## Normal CDF engine and capability calculators (src/utils/stats.ts)

These functions use the transcendental `Math.exp` / `Math.log` / `Math.sqrt`,
so they are embedded over `ℝ` (hence `noncomputable`); the possibly
non-finite inputs of `computeStats` / `computeAdvancedStats` are `JSNum ℝ`. -/

open scoped Classical in
/-- `erf` from stats.ts: the Abramowitz–Stegun rational approximation. -/
noncomputable def erf (x : ℝ) : ℝ :=
  let sign : ℝ := if 0 ≤ x then 1 else -1
  let ax := |x|
  let a1 : ℝ := 0.254829592
  let a2 : ℝ := -0.284496736
  let a3 : ℝ := 1.421413741
  let a4 : ℝ := -1.453152027
  let a5 : ℝ := 1.061405429
  let p : ℝ := 0.3275911
  let t := 1 / (1 + p * ax)
  let y := 1 - (((((a5 * t + a4) * t) + a3) * t + a2) * t + a1) * t *
    Real.exp (-(ax * ax))
  sign * y

/-- `phi` from stats.ts: the standard normal CDF
`0.5 * (1 + erf(x / Math.SQRT2))`. -/
noncomputable def phi (x : ℝ) : ℝ :=
  0.5 * (1 + erf (x / Real.sqrt 2))

/-- `StatsResult` from types.ts. -/
structure StatsResult where
  cp : ℝ
  cpk : ℝ
  pctOutside : ℝ
  pctInside : ℝ
  pctAbove : ℝ
  pctBelow : ℝ

open scoped Classical in
/-- `computeStats` from stats.ts.  The `inputsAreValid` guard
(`isFinite` on all four inputs, `std > 0`, `usl > lsl`) is the constructor
match plus the two comparisons; on failure the result is `null = none`. -/
noncomputable def computeStats (mean std lsl usl : JSNum ℝ) :
    Option StatsResult :=
  match mean, std, lsl, usl with
  | .fin m, .fin s, .fin l, .fin u =>
    if 0 < s ∧ l < u then
      some
        { cp := (u - l) / (6 * s)
          cpk := min ((u - m) / (3 * s)) ((m - l) / (3 * s))
          pctOutside := 100 - (phi ((u - m) / s) - phi ((l - m) / s)) * 100
          pctInside := (phi ((u - m) / s) - phi ((l - m) / s)) * 100
          pctAbove := (1 - phi ((u - m) / s)) * 100
          pctBelow := phi ((l - m) / s) * 100 }
    else none
  | _, _, _, _ => none

/-- `AdvancedStatsResult` from types.ts; `cpm` is present only when a finite
target was supplied. -/
structure AdvancedStatsResult where
  pp : ℝ
  ppk : ℝ
  dpmo : ℝ
  sigmaLevel : ℝ
  cpm : Option ℝ

open scoped Classical in
/-- `inverseNormal` from stats.ts: the Beasley–Springer–Moro approximation.
The JS guard `p <= 0 || p >= 1` returns `±Infinity`, which has no `ℝ`
counterpart; it is unreachable from `calculateSigmaLevel` (the only caller),
and is modelled as `0`. -/
noncomputable def inverseNormal (p : ℝ) : ℝ :=
  let a0 : ℝ := 2.50662823884
  let a1 : ℝ := -18.61500062529
  let a2 : ℝ := 41.39119773534
  let a3 : ℝ := -25.44106049637
  let b0 : ℝ := -8.47351093090
  let b1 : ℝ := 23.08336743743
  let b2 : ℝ := -21.06224101826
  let b3 : ℝ := 3.13082909833
  let c0 : ℝ := 0.3374754822726147
  let c1 : ℝ := 0.9761690190917186
  let c2 : ℝ := 0.1607979714918209
  let c3 : ℝ := 0.0276438810333863
  let c4 : ℝ := 0.0038405729373609
  let c5 : ℝ := 0.0003951896511919
  let c6 : ℝ := 0.0000321767881768
  let c7 : ℝ := 0.0000002888167364
  let c8 : ℝ := 0.0000003960315187
  if p ≤ 0 ∨ 1 ≤ p then 0
  else
    let y := p - 0.5
    if |y| < 0.42 then
      let r := y * y
      y * (((a3 * r + a2) * r + a1) * r + a0) /
        ((((b3 * r + b2) * r + b1) * r + b0) * r + 1)
    else
      let r0 := if 0 < y then 1 - p else p
      let r := Real.log (-Real.log r0)
      let x := c0 + r * (c1 + r * (c2 + r * (c3 + r * (c4 + r * (c5 + r *
        (c6 + r * (c7 + r * c8)))))))
      if y < 0 then -x else x

open scoped Classical in
/-- `calculateSigmaLevel` from stats.ts: DPMO to sigma level with the
boundary policy `dpmo <= 0 → 6` and `dpmo >= 1e6 → 0`. -/
noncomputable def calculateSigmaLevel (dpmo : ℝ) : ℝ :=
  if dpmo ≤ 0 then 6
  else if 1000000 ≤ dpmo then 0
  else
    let prob := dpmo / 1000000
    let oneTailProb := prob / 2
    max 0 (inverseNormal (1 - oneTailProb))

open scoped Classical in
/-- The effective sample deviation of `computeAdvancedStats`:
`sampleStd && sampleStd > 0 ? sampleStd : std` (for a finite optional
`sampleStd`, JS truthiness plus positivity is exactly positivity). -/
noncomputable def effectiveSampleStd (sampleStd : Option ℝ) (std : ℝ) : ℝ :=
  match sampleStd with
  | some s => if 0 < s then s else std
  | none => std

open scoped Classical in
/-- `computeAdvancedStats` from stats.ts.  `sampleStd` and `target` are the
optional (finite) arguments; validity is checked on the four main inputs
exactly as in `computeStats`. -/
noncomputable def computeAdvancedStats (mean std lsl usl : JSNum ℝ)
    (sampleStd target : Option ℝ) : Option AdvancedStatsResult :=
  match mean, std, lsl, usl with
  | .fin m, .fin s, .fin l, .fin u =>
    if 0 < s ∧ l < u then
      let sampleStdDev :=
        match sampleStd with
        | some ss => if 0 < ss then ss else s
        | none => s
      let pp := (u - l) / (6 * sampleStdDev)
      let ppu := (u - m) / (3 * sampleStdDev)
      let ppl := (m - l) / (3 * sampleStdDev)
      let ppk := min ppu ppl
      let zL := (l - m) / s
      let zU := (u - m) / s
      let pctOutside := (phi zL + (1 - phi zU)) * 100
      let dpmo := pctOutside / 100 * 1000000
      let sigmaLevel := calculateSigmaLevel dpmo
      let cpm :=
        match target with
        | some tg =>
            some ((u - l) / (6 * Real.sqrt (s * s + (m - tg) * (m - tg))))
        | none => none
      some ⟨pp, ppk, dpmo, sigmaLevel, cpm⟩
    else none
  | _, _, _, _ => none

/-- Pointwise sums of naturals over a mapped list split. -/
theorem sum_map_add_nat (l : List ℕ) (f g : ℕ → ℕ) :
    (l.map (fun i => f i + g i)).sum = (l.map f).sum + (l.map g).sum := by
  induction l with
  | nil => simp
  | cons x xs ih => simp [ih]; omega

/-- The indicator of a point not in `List.range n` sums to zero. -/
theorem sum_indicator_range_of_ge (k n : ℕ) (h : n ≤ k) :
    ((List.range n).map (fun i => if k = i then 1 else 0)).sum = 0 := by
  induction n with
  | zero => simp
  | succ n ih =>
      have h1 : n ≤ k := Nat.le_of_succ_le h
      have h2 : k ≠ n := by omega
      simp [List.range_succ, ih h1, h2]

/-- The indicator of a point of `List.range n` sums to one. -/
theorem sum_indicator_range (k n : ℕ) (h : k < n) :
    ((List.range n).map (fun i => if k = i then 1 else 0)).sum = 1 := by
  induction n with
  | zero => omega
  | succ n ih =>
      rcases Nat.lt_succ_iff_lt_or_eq.mp h with h' | h'
      · have h2 : k ≠ n := Nat.ne_of_lt h'
        simp [List.range_succ, ih h', h2]
      · subst h'
        simp [List.range_succ, sum_indicator_range_of_ge k k le_rfl]

/-- Counting a list by the fibers of a function with range below `n` recovers
its length. -/
theorem sum_countP_range (f : ℚ → ℕ) (n : ℕ) (data : List ℚ)
    (hf : ∀ v ∈ data, f v < n) :
    ((List.range n).map (fun i => data.countP (fun v => f v == i))).sum =
      data.length := by
  induction data with
  | nil => simp
  | cons x xs ih =>
      have hx : f x < n := hf x (by simp)
      have hxs : ∀ v ∈ xs, f v < n := fun v hv => hf v (by simp [hv])
      simp only [List.countP_cons, beq_iff_eq]
      rw [sum_map_add_nat, ih hxs]
      have hone : ((List.range n).map (fun i => if f x = i then 1 else 0)).sum = 1 :=
        sum_indicator_range (f x) n hx
      rw [hone]
      simp

/-- C1 (counterexample): on the non-empty all-equal data `[5, 5]` (where
`max == min`) `generateHistogram` crashes — in JS the bin index is
`Math.floor(0/0) = NaN` and `bins[NaN].count++` throws — so no histogram with
bin counts summing to the data length is returned; the same happens for
`numBins = 0`. -/
theorem generateHistogram_equal_data_crash :
    generateHistogram [(5 : ℚ), 5] 20 = none ∧
    generateHistogram [(1 : ℚ), 2] 0 = none := by
  constructor <;>
    · norm_num [generateHistogram, listMin, listMax]
      exact fun h => absurd h (by simp)

/-- C1 (amended): for every non-empty data sequence whose values are not all
equal (`min < max` fails only then) and every bin count `n ≥ 1`,
`generateHistogram` returns a histogram with exactly `n` bins whose counts sum
to the length of the data. -/
theorem generateHistogram_counts_sum (data : List ℚ) (n : ℕ)
    (hne : data ≠ []) (hn : 0 < n) (hmm : listMin data ≠ listMax data) :
    ∃ h, generateHistogram data n = some h ∧
      h.bins.length = n ∧ (h.bins.map HistogramBin.count).sum = data.length := by
  have hg : ¬(n = 0 ∨ listMax data - listMin data = 0) := by
    push_neg
    exact ⟨hn.ne', sub_ne_zero.mpr fun h => hmm h.symm⟩
  simp only [generateHistogram]
  rw [if_neg hne, if_neg hg]
  refine ⟨_, rfl, ?_, ?_⟩
  · simp
  · have key :=
      sum_countP_range
        (histBinIndex (listMin data) ((listMax data - listMin data) / (n : ℚ)) n)
        n data
        (fun v _ => lt_of_le_of_lt (Nat.min_le_right _ _) (by omega))
    rw [List.map_map]
    exact key

/-- C1 witness: the amended theorem instantiated on data `[0, 1]` with one
bin. -/
theorem generateHistogram_counts_sum_witness :
    ([(0 : ℚ), 1] ≠ []) ∧ 0 < 1 ∧
      listMin [(0 : ℚ), 1] ≠ listMax [(0 : ℚ), 1] ∧
      (∃ h, generateHistogram [(0 : ℚ), 1] 1 = some h ∧
        h.bins.length = 1 ∧
        (h.bins.map HistogramBin.count).sum = [(0 : ℚ), 1].length) :=
  ⟨by simp, by norm_num, by norm_num [listMin, listMax],
   generateHistogram_counts_sum [(0 : ℚ), 1] 1 (by simp) (by norm_num)
     (by norm_num [listMin, listMax])⟩

/-- C2 (counterexample): with a valid mean `5` and std `1` but the invalid
multiplier `0`, `computeFitToMeanViewport` returns the global fallback
`{-6, 6}`, not `{mean - 6, mean + 6} = {-1, 11}` as the claim states. -/
theorem computeFitToMeanViewport_invalid_multiplier_counterexample :
    computeFitToMeanViewport (.fin 5) (.fin 1) (.fin 0) = ⟨-6, 6⟩ ∧
    (⟨-6, 6⟩ : ViewportBounds) ≠ ⟨5 - 6, 5 + 6⟩ := by
  constructor
  · simp only [computeFitToMeanViewport]
    norm_num
  · simp only [ne_eq, ViewportBounds.mk.injEq]
    norm_num

/-- C2 (amended): for every finite mean and finite std > 0, if the multiplier
is invalid (non-finite or ≤ 0), `computeFitToMeanViewport` returns the global
fallback `{displayMin := -6, displayMax := 6}`. -/
theorem computeFitToMeanViewport_invalid_multiplier (m s : ℚ) (k : JSNum ℚ)
    (hs : 0 < s) (hk : ∀ q, k = .fin q → q ≤ 0) :
    computeFitToMeanViewport (.fin m) (.fin s) k = ⟨-6, 6⟩ := by
  cases k with
  | fin q =>
      have hq : q ≤ 0 := hk q rfl
      simp only [computeFitToMeanViewport]
      rw [if_pos (Or.inr hq)]
  | nan => rfl
  | posInf => rfl
  | negInf => rfl

/-- C2 witness: instantiating the amended theorem at mean 5, std 1,
multiplier 0. -/
theorem computeFitToMeanViewport_invalid_multiplier_witness :
    (0 : ℚ) < 1 ∧
    computeFitToMeanViewport (.fin 5) (.fin 1) (.fin 0) = ⟨-6, 6⟩ :=
  ⟨by norm_num,
   computeFitToMeanViewport_invalid_multiplier 5 1 (.fin 0) (by norm_num)
     (by rintro q h; cases h; exact le_rfl)⟩

/-- C3: for arbitrary numeric inputs (including non-finite ones), both
viewport functions return bounds with `displayMin < displayMax`.  The bounds
are rationals by construction, hence finite. -/
theorem viewport_bounds_wellFormed (mean std lsl usl mult : JSNum ℚ) :
    (computeHybridViewport mean std lsl usl).displayMin <
      (computeHybridViewport mean std lsl usl).displayMax ∧
    (computeFitToMeanViewport mean std mult).displayMin <
      (computeFitToMeanViewport mean std mult).displayMax := by
  constructor
  · cases mean with
    | fin m =>
        cases std with
        | fin s =>
            simp only [computeHybridViewport]
            split_ifs with h1 h2
            · norm_num
            · simp only
              linarith [lt_of_not_ge h1]
            · simp only
              exact lt_of_not_ge h2
        | nan => norm_num [computeHybridViewport]
        | posInf => norm_num [computeHybridViewport]
        | negInf => norm_num [computeHybridViewport]
    | nan => norm_num [computeHybridViewport]
    | posInf => norm_num [computeHybridViewport]
    | negInf => norm_num [computeHybridViewport]
  · cases mean with
    | fin m =>
        cases std with
        | fin s =>
            cases mult with
            | fin k =>
                simp only [computeFitToMeanViewport]
                split_ifs with h1 h2
                · norm_num
                · simp only
                  linarith
                · simp only
                  exact lt_of_not_ge h2
            | nan => norm_num [computeFitToMeanViewport]
            | posInf => norm_num [computeFitToMeanViewport]
            | negInf => norm_num [computeFitToMeanViewport]
        | nan => norm_num [computeFitToMeanViewport]
        | posInf => norm_num [computeFitToMeanViewport]
        | negInf => norm_num [computeFitToMeanViewport]
    | nan => norm_num [computeFitToMeanViewport]
    | posInf => norm_num [computeFitToMeanViewport]
    | negInf => norm_num [computeFitToMeanViewport]

/-! ## Goal-seek theorems -/

/-- C5: in the infeasible case (`minMean > maxMean` with valid target, std
and limits) `solveForMean` returns a failure carrying an error message and a
fallback with the centered mean `(lsl+usl)/2` and its `calculateCpk`; no
solved mean is returned. -/
theorem solveForMean_infeasible (t lsl usl std : ℚ) (cm : Option ℚ)
    (ht : 0 < t) (hs : 0 < std) (hlim : lsl < usl)
    (hinf : usl - 3 * t * std < lsl + 3 * t * std) :
    solveForMean t lsl usl std cm =
      ⟨.failed, none, none, none, some .targetUnachievable, false,
        some ⟨some ((lsl + usl) / 2), none,
          calculateCpk ((lsl + usl) / 2) std lsl usl⟩⟩ := by
  simp only [solveForMean]
  rw [if_neg (by linarith), if_neg (by linarith), if_neg (by linarith),
    if_pos hinf]

/-- C5 witness: the spec's own example `solveForMean(2.0, -3, 3, 2)`. -/
theorem solveForMean_infeasible_witness :
    (0 : ℚ) < 2 ∧ (0 : ℚ) < 2 ∧ (-3 : ℚ) < 3 ∧
      (3 : ℚ) - 3 * 2 * 2 < -3 + 3 * 2 * 2 ∧
      solveForMean 2 (-3) 3 2 none =
        ⟨.failed, none, none, none, some .targetUnachievable, false,
          some ⟨some (((-3 : ℚ) + 3) / 2), none,
            calculateCpk (((-3 : ℚ) + 3) / 2) 2 (-3) 3⟩⟩ :=
  ⟨by norm_num, by norm_num, by norm_num, by norm_num,
   solveForMean_infeasible 2 (-3) 3 2 none (by norm_num) (by norm_num)
     (by norm_num) (by norm_num)⟩

/-- In the feasible case, `solveForMean` returns the clamped mean
`solveForMeanChoice`, its `calculateCpk`, and a partial/full success
according to the `0.01` tolerance. -/
theorem solveForMean_feasible_eq (t lsl usl std : ℚ) (cm : Option ℚ)
    (ht : 0 < t) (hs : 0 < std) (hlim : lsl < usl)
    (hfeas : lsl + 3 * t * std ≤ usl - 3 * t * std) :
    solveForMean t lsl usl std cm =
      if 0.01 < |calculateCpk (solveForMeanChoice t lsl usl std cm) std lsl usl - t| then
        ⟨.partialSuccess, some (solveForMeanChoice t lsl usl std cm), none,
          some (calculateCpk (solveForMeanChoice t lsl usl std cm) std lsl usl),
          none, true, none⟩
      else
        ⟨.full, some (solveForMeanChoice t lsl usl std cm), none,
          some (calculateCpk (solveForMeanChoice t lsl usl std cm) std lsl usl),
          none, false, none⟩ := by
  simp only [solveForMean, solveForMeanChoice]
  rw [if_neg (by linarith), if_neg (by linarith), if_neg (by linarith),
    if_neg (not_lt.mpr hfeas)]

/-- C6: for a feasible `solveForMean` call, the returned mean is
`currentMean` clamped into `[minMean, maxMean]` (midpoint when absent), the
achieved Cpk is the shared `calculateCpk` of that mean, and the result is a
partial success exactly when `|achievedCpk - targetCpk| > 0.01`, otherwise a
full success. -/
theorem solveForMean_feasible (t lsl usl std : ℚ) (cm : Option ℚ)
    (ht : 0 < t) (hs : 0 < std) (hlim : lsl < usl)
    (hfeas : lsl + 3 * t * std ≤ usl - 3 * t * std) :
    (cm = none → (solveForMean t lsl usl std cm).mean =
        some ((lsl + 3 * t * std + (usl - 3 * t * std)) / 2)) ∧
    (∀ c, cm = some c →
        (lsl + 3 * t * std ≤ c → c ≤ usl - 3 * t * std →
           (solveForMean t lsl usl std cm).mean = some c) ∧
        (c < lsl + 3 * t * std →
           (solveForMean t lsl usl std cm).mean = some (lsl + 3 * t * std)) ∧
        (usl - 3 * t * std < c →
           (solveForMean t lsl usl std cm).mean = some (usl - 3 * t * std))) ∧
    (∀ m, (solveForMean t lsl usl std cm).mean = some m →
        (solveForMean t lsl usl std cm).achievedCpk =
          some (calculateCpk m std lsl usl)) ∧
    ((solveForMean t lsl usl std cm).success = .partialSuccess ∨
       (solveForMean t lsl usl std cm).success = .full) ∧
    (∀ a, (solveForMean t lsl usl std cm).achievedCpk = some a →
        ((solveForMean t lsl usl std cm).success = .partialSuccess ↔
          0.01 < |a - t|)) := by
  have heq := solveForMean_feasible_eq t lsl usl std cm ht hs hlim hfeas
  set M := solveForMeanChoice t lsl usl std cm with hM
  set A := calculateCpk M std lsl usl with hA
  have hmean : (solveForMean t lsl usl std cm).mean = some M := by
    rw [heq]; split_ifs <;> rfl
  have hach : (solveForMean t lsl usl std cm).achievedCpk = some A := by
    rw [heq]; split_ifs <;> rfl
  have hsucc : (solveForMean t lsl usl std cm).success =
      (if 0.01 < |A - t| then GSSuccess.partialSuccess else .full) := by
    rw [heq]; split_ifs <;> rfl
  refine ⟨?_, ?_, ?_, ?_, ?_⟩
  · intro hcm
    subst hcm
    rw [hmean, hM]
    simp [solveForMeanChoice]
  · intro c hcm
    subst hcm
    refine ⟨?_, ?_, ?_⟩
    · intro h1 h2
      rw [hmean, hM]
      simp only [solveForMeanChoice]
      rw [if_pos ⟨h1, h2⟩]
    · intro h1
      rw [hmean, hM]
      simp only [solveForMeanChoice]
      rw [if_neg (by rintro ⟨ha, hb⟩; linarith), if_pos h1]
    · intro h1
      rw [hmean, hM]
      simp only [solveForMeanChoice]
      rw [if_neg (by rintro ⟨ha, hb⟩; linarith),
        if_neg (not_lt.mpr (by linarith))]
  · intro m hm
    rw [hmean] at hm
    have hMm : M = m := Option.some.inj hm
    rw [hach, hA, hMm]
  · rw [hsucc]
    split_ifs
    · exact Or.inl rfl
    · exact Or.inr rfl
  · intro a ha
    rw [hach] at ha
    obtain rfl : A = a := Option.some.inj ha
    rw [hsucc]
    split_ifs with hp
    · exact iff_of_true rfl hp
    · simp [hp]

/-- C6 witness: feasible call `solveForMean 1 (-4) 4 1 (some 0)`; the
current mean `0` lies inside the feasible interval `[-1, 1]` and is returned
unchanged. -/
theorem solveForMean_feasible_witness :
    (0 : ℚ) < 1 ∧ (0 : ℚ) < 1 ∧ (-4 : ℚ) < 4 ∧
      (-4 : ℚ) + 3 * 1 * 1 ≤ 4 - 3 * 1 * 1 ∧
      (solveForMean 1 (-4) 4 1 (some 0)).mean = some 0 :=
  ⟨by norm_num, by norm_num, by norm_num, by norm_num,
   ((solveForMean_feasible 1 (-4) 4 1 (some 0) (by norm_num) (by norm_num)
       (by norm_num) (by norm_num)).2.1 0 rfl).1 (by norm_num) (by norm_num)⟩

/-- C9: there are valid inputs where `solveForMean` reports a partial
success whose achieved Cpk exceeds the target by more than the 0.01
tolerance: with target 1, limits -4/4, std 1 and current mean 0 the mean is
kept at 0 and the achieved Cpk is 4/3 > 1 + 0.01. -/
theorem solveForMean_partial_exceeds_target :
    (solveForMean 1 (-4) 4 1 (some 0)).success = .partialSuccess ∧
    (solveForMean 1 (-4) 4 1 (some 0)).mean = some 0 ∧
    (solveForMean 1 (-4) 4 1 (some 0)).achievedCpk = some (4 / 3) ∧
    (1 : ℚ) + 0.01 < 4 / 3 := by
  have heq := solveForMean_feasible_eq 1 (-4) 4 1 (some 0) (by norm_num)
    (by norm_num) (by norm_num) (by norm_num)
  have hM : solveForMeanChoice 1 (-4) 4 1 (some 0) = 0 := by
    simp only [solveForMeanChoice]
    norm_num
  rw [hM] at heq
  have hA : calculateCpk 0 1 (-4) 4 = 4 / 3 := by
    simp only [calculateCpk]
    norm_num
  rw [hA] at heq
  have habs : (0.01 : ℚ) < |4 / 3 - 1| := by
    rw [show |(4 : ℚ) / 3 - 1| = 1 / 3 by rw [abs_of_pos] <;> norm_num]
    norm_num
  rw [if_pos habs] at heq
  rw [heq]
  refine ⟨rfl, rfl, rfl, by norm_num⟩

/-- C10: every successful `solveForStd` call achieves the target exactly:
the returned std is the minimum of the two one-sided solutions, and the
nearer limit's capability is then exactly `targetCpk`. -/
theorem solveForStd_achieves_target (t mean lsl usl : ℚ)
    (h : (solveForStd t mean lsl usl).success = .full) :
    (solveForStd t mean lsl usl).achievedCpk = some t := by
  simp only [solveForStd] at h ⊢
  split_ifs at h ⊢ with h1 h2 h3 h4 h5 h6
  have ht : 0 < t := lt_of_not_ge h1
  have hml : 0 < mean - lsl := by
    have := lt_of_not_ge h3
    linarith
  have hum : 0 < usl - mean := by
    have := lt_of_not_ge h4
    linarith
  have h3t : (0 : ℚ) < 3 * t := by linarith
  have hsU : 0 < (usl - mean) / (3 * t) := div_pos hum h3t
  have hsL : 0 < (mean - lsl) / (3 * t) := div_pos hml h3t
  have hrs : 0 < min ((usl - mean) / (3 * t)) ((mean - lsl) / (3 * t)) :=
    lt_min hsU hsL
  have hll : lsl < usl := by linarith
  show some (calculateCpk mean
      (min ((usl - mean) / (3 * t)) ((mean - lsl) / (3 * t))) lsl usl) = some t
  refine congrArg some ?_
  simp only [calculateCpk]
  rw [if_neg (by rintro (hbad | hbad) <;> linarith)]
  have htne : t ≠ 0 := ne_of_gt ht
  have humne : usl - mean ≠ 0 := ne_of_gt hum
  have hmlne : mean - lsl ≠ 0 := ne_of_gt hml
  rcases le_total ((usl - mean) / (3 * t)) ((mean - lsl) / (3 * t)) with hc | hc
  · rw [min_eq_left hc]
    have hc' : usl - mean ≤ mean - lsl := by
      rw [div_le_div_iff h3t h3t] at hc
      exact le_of_mul_le_mul_right hc h3t
    have hA : (usl - mean) / (3 * ((usl - mean) / (3 * t))) = t := by
      field_simp
      ring
    have h3sU : (0 : ℚ) < 3 * ((usl - mean) / (3 * t)) := by linarith
    have hts : t * (3 * ((usl - mean) / (3 * t))) = usl - mean := by
      field_simp
      ring
    have hB : t ≤ (mean - lsl) / (3 * ((usl - mean) / (3 * t))) := by
      rw [le_div_iff h3sU, hts]
      exact hc'
    rw [hA]
    exact min_eq_left hB
  · rw [min_eq_right hc]
    have hc' : mean - lsl ≤ usl - mean := by
      rw [div_le_div_iff h3t h3t] at hc
      exact le_of_mul_le_mul_right hc h3t
    have hA : (mean - lsl) / (3 * ((mean - lsl) / (3 * t))) = t := by
      field_simp
      ring
    have h3sL : (0 : ℚ) < 3 * ((mean - lsl) / (3 * t)) := by linarith
    have hts : t * (3 * ((mean - lsl) / (3 * t))) = mean - lsl := by
      field_simp
      ring
    have hB : t ≤ (usl - mean) / (3 * ((mean - lsl) / (3 * t))) := by
      rw [le_div_iff h3sL, hts]
      exact hc'
    rw [hA]
    exact min_eq_right hB

/-- C10 witness: `solveForStd (4/3) 0 (-4) 4` succeeds and achieves exactly
4/3. -/
theorem solveForStd_achieves_target_witness :
    (solveForStd (4 / 3) 0 (-4) 4).success = .full ∧
    (solveForStd (4 / 3) 0 (-4) 4).achievedCpk = some (4 / 3) :=
  ⟨by simp only [solveForStd]; norm_num,
   solveForStd_achieves_target (4 / 3) 0 (-4) 4
     (by simp only [solveForStd]; norm_num)⟩

/-! ## Capability calculator theorems -/

/-- C4: for every valid input, the percentages of `computeStats` satisfy
`pctBelow + pctAbove + pctInside = 100` (exactly in real arithmetic, hence
within the 1e-6 tolerance) and `pctOutside + pctInside = 100` exactly by
construction. -/
theorem computeStats_percentages_sum (m s l u : ℝ) (hs : 0 < s) (hlu : l < u) :
    ∃ r, computeStats (.fin m) (.fin s) (.fin l) (.fin u) = some r ∧
      |r.pctBelow + r.pctAbove + r.pctInside - 100| ≤ 1e-6 ∧
      r.pctOutside + r.pctInside = 100 := by
  have heq : computeStats (.fin m) (.fin s) (.fin l) (.fin u) =
      some ⟨(u - l) / (6 * s), min ((u - m) / (3 * s)) ((m - l) / (3 * s)),
        100 - (phi ((u - m) / s) - phi ((l - m) / s)) * 100,
        (phi ((u - m) / s) - phi ((l - m) / s)) * 100,
        (1 - phi ((u - m) / s)) * 100,
        phi ((l - m) / s) * 100⟩ := by
    simp only [computeStats]
    rw [if_pos ⟨hs, hlu⟩]
  refine ⟨_, heq, ?_, ?_⟩
  · show |phi ((l - m) / s) * 100 + (1 - phi ((u - m) / s)) * 100 +
      (phi ((u - m) / s) - phi ((l - m) / s)) * 100 - 100| ≤ 1e-6
    have hz : phi ((l - m) / s) * 100 + (1 - phi ((u - m) / s)) * 100 +
        (phi ((u - m) / s) - phi ((l - m) / s)) * 100 - 100 = 0 := by ring
    rw [hz, abs_zero]
    norm_num
  · show 100 - (phi ((u - m) / s) - phi ((l - m) / s)) * 100 +
      (phi ((u - m) / s) - phi ((l - m) / s)) * 100 = 100
    ring

/-- C4 witness: the valid input `(0, 1, -1, 1)`. -/
theorem computeStats_percentages_sum_witness :
    (0 : ℝ) < 1 ∧ (-1 : ℝ) < 1 ∧
      ∃ r, computeStats (.fin 0) (.fin 1) (.fin (-1)) (.fin 1) = some r ∧
        |r.pctBelow + r.pctAbove + r.pctInside - 100| ≤ 1e-6 ∧
        r.pctOutside + r.pctInside = 100 :=
  ⟨by norm_num, by norm_num,
   computeStats_percentages_sum 0 1 (-1) 1 (by norm_num) (by norm_num)⟩

/-- C8: `computeStats` returns `none` exactly when some input is non-finite,
or `std ≤ 0`, or `usl ≤ lsl`; on every other input it returns a complete
result (and, being a total function, it never throws). -/
theorem computeStats_invalid_iff_none (mean std lsl usl : JSNum ℝ) :
    (computeStats mean std lsl usl = none ↔
      ¬ ∃ m s l u : ℝ, mean = .fin m ∧ std = .fin s ∧ lsl = .fin l ∧
        usl = .fin u ∧ 0 < s ∧ l < u) ∧
    ((∃ m s l u : ℝ, mean = .fin m ∧ std = .fin s ∧ lsl = .fin l ∧
        usl = .fin u ∧ 0 < s ∧ l < u) →
      ∃ r, computeStats mean std lsl usl = some r) := by
  cases mean <;> cases std <;> cases lsl <;> cases usl <;>
    simp [computeStats]

/-- C8 witness: a valid input yields a result and `std = 0` yields `none`. -/
theorem computeStats_invalid_iff_none_witness :
    (∃ r, computeStats (.fin 0) (.fin 1) (.fin (-3)) (.fin 3) = some r) ∧
    computeStats (.fin 0) (.fin 0) (.fin (-3)) (.fin 3) = none :=
  ⟨(computeStats_invalid_iff_none (.fin 0) (.fin 1) (.fin (-3)) (.fin 3)).2
     ⟨0, 1, -3, 3, rfl, rfl, rfl, rfl, by norm_num, by norm_num⟩,
   (computeStats_invalid_iff_none (.fin 0) (.fin 0) (.fin (-3)) (.fin 3)).1.mpr
     (by
       rintro ⟨m, s, l, u, hm, hs, hl, hu, hpos, hlu⟩
       injection hs with hs'
       rw [← hs'] at hpos
       exact absurd hpos (lt_irrefl 0))⟩

/-- The valid-input evaluation of `computeAdvancedStats`, with the effective
sample deviation named. -/
theorem computeAdvancedStats_eq (m s l u : ℝ) (ss target : Option ℝ)
    (hs : 0 < s) (hlu : l < u) :
    computeAdvancedStats (.fin m) (.fin s) (.fin l) (.fin u) ss target =
      some ⟨(u - l) / (6 * effectiveSampleStd ss s),
        min ((u - m) / (3 * effectiveSampleStd ss s))
          ((m - l) / (3 * effectiveSampleStd ss s)),
        (phi ((l - m) / s) + (1 - phi ((u - m) / s))) * 100 / 100 * 1000000,
        calculateSigmaLevel
          ((phi ((l - m) / s) + (1 - phi ((u - m) / s))) * 100 / 100 * 1000000),
        (match target with
         | some tg => some ((u - l) / (6 * Real.sqrt (s * s + (m - tg) * (m - tg))))
         | none => none)⟩ := by
  simp only [computeAdvancedStats, effectiveSampleStd]
  rw [if_pos ⟨hs, hlu⟩]

/-- C7: `dpmo` and `sigmaLevel` of `computeAdvancedStats` do not depend on
the optional `sampleStd` argument (they are computed from the population
std), while `pp` and `ppk` use `sampleStd` when given and positive and fall
back to `std` otherwise (`effectiveSampleStd`). -/
theorem computeAdvancedStats_sampleStd_contract :
    (∀ (mean std lsl usl : JSNum ℝ) (ss1 ss2 target : Option ℝ),
      (computeAdvancedStats mean std lsl usl ss1 target).map
          AdvancedStatsResult.dpmo =
        (computeAdvancedStats mean std lsl usl ss2 target).map
          AdvancedStatsResult.dpmo ∧
      (computeAdvancedStats mean std lsl usl ss1 target).map
          AdvancedStatsResult.sigmaLevel =
        (computeAdvancedStats mean std lsl usl ss2 target).map
          AdvancedStatsResult.sigmaLevel) ∧
    (∀ (m s l u : ℝ) (ss target : Option ℝ), 0 < s → l < u →
      (computeAdvancedStats (.fin m) (.fin s) (.fin l) (.fin u) ss target).map
          AdvancedStatsResult.pp =
        some ((u - l) / (6 * effectiveSampleStd ss s)) ∧
      (computeAdvancedStats (.fin m) (.fin s) (.fin l) (.fin u) ss target).map
          AdvancedStatsResult.ppk =
        some (min ((u - m) / (3 * effectiveSampleStd ss s))
          ((m - l) / (3 * effectiveSampleStd ss s)))) := by
  constructor
  · intro mean std lsl usl ss1 ss2 target
    cases mean <;> cases std <;> cases lsl <;> cases usl <;>
        simp only [computeAdvancedStats] <;>
        try exact ⟨True.intro, True.intro⟩
    split_ifs with hc <;> exact ⟨rfl, rfl⟩
  · intro m s l u ss target hs hlu
    rw [computeAdvancedStats_eq m s l u ss target hs hlu]
    exact ⟨rfl, rfl⟩

/-- C7 witness: at `(0, 1, -3, 3)`, a call with `sampleStd = 2` and a call
without it share their DPMO, and `pp` uses the effective sample deviation. -/
theorem computeAdvancedStats_sampleStd_contract_witness :
    (0 : ℝ) < 1 ∧ (-3 : ℝ) < 3 ∧
    (computeAdvancedStats (.fin 0) (.fin 1) (.fin (-3)) (.fin 3) (some 2) none).map
        AdvancedStatsResult.dpmo =
      (computeAdvancedStats (.fin 0) (.fin 1) (.fin (-3)) (.fin 3) none none).map
        AdvancedStatsResult.dpmo ∧
    (computeAdvancedStats (.fin 0) (.fin 1) (.fin (-3)) (.fin 3) (some 2) none).map
        AdvancedStatsResult.pp =
      some (((3 : ℝ) - (-3)) / (6 * effectiveSampleStd (some 2) 1)) :=
  ⟨by norm_num, by norm_num,
   (computeAdvancedStats_sampleStd_contract.1 (.fin 0) (.fin 1) (.fin (-3))
      (.fin 3) (some 2) none none).1,
   (computeAdvancedStats_sampleStd_contract.2 0 1 (-3) 3 (some 2) none
      (by norm_num) (by norm_num)).1⟩
